import Mathlib

/-!
# Ribaah backend — shallow embedding and verification

A shallow embedding of the Ribaah chat backend (Express routes for
users/friends/messages, Mongoose models, and a Socket.IO real-time layer),
together with theorems checking the natural-language specification against
the code.

Conventions of the embedding:
* MongoDB ObjectIds are modelled as `Nat`; timestamps as `Nat`.
* Mongoose string enums (`status` fields) are kept as `String`, as in the
  schemas.
* Each collection is a Lean list; an atomic conditional update
  (`findOneAndUpdate`, `updateMany`) is a single pure function on the list,
  while a non-atomic read-then-write sequence in the source is modelled as
  two functions so that interleavings can be expressed.
* `await` suspension points between two storage calls are where concurrent
  interleavings may occur; racy executions are modelled by running a
  handler's read phase against an older database state than its write phase.
-/

/-- A user document (`models/User.js` is not in scope, but its fields are
fixed by the `.select('username email avatar bio status lastSeen')`
projections and the `friends` array used throughout `routes/*.js`). -/
structure UserR where
  id : Nat
  username : String
  email : String
  avatar : String
  bio : String
  status : String
  lastSeen : Nat
  friends : List Nat
  deriving Repr, DecidableEq

/-- A message document (`models/Message.js`). -/
structure Message where
  id : Nat
  sender : Nat
  recipient : Nat
  content : String
  messageType : String
  isRead : Bool
  readAt : Option Nat
  isEdited : Bool
  editedAt : Option Nat
  createdAt : Nat
  deriving Repr, DecidableEq

/-- A friend-request document (`models/FriendRequest.js`). -/
structure FriendRequest where
  id : Nat
  sender : Nat
  recipient : Nat
  status : String
  message : String
  createdAt : Nat
  deriving Repr, DecidableEq

/-- The MongoDB database state used by the route handlers. -/
structure DB where
  users : List UserR
  requests : List FriendRequest
  messages : List Message
  deriving Repr, DecidableEq

/-- `User.findById(uid)`. -/
def findUser (db : DB) (uid : Nat) : Option UserR :=
  db.users.find? (fun u => u.id == uid)

/-! ## PUT /api/users/status (routes/users.js) -/

/-- The status-update handler: validates
`['online', 'offline', 'away'].includes(status)`, then sets
`req.user.status = status; req.user.lastSeen = new Date();` and saves.
`none` models the 400 validation response. -/
def updateStatus (u : UserR) (status : String) (now : Nat) : Option UserR :=
  if (["online", "offline", "away"] : List String).contains status then
    some { u with status := status, lastSeen := now }
  else
    none

/-! ## GET /api/users/search (routes/users.js)

The handler passes the raw query into a MongoDB `$regex` with option `'i'`,
i.e. a full PCRE-style engine.  We embed only the regex fragment consisting
of literal (non-metacharacter) characters and the `.` wildcard: the
embedding agrees with the handler exactly on queries built from that
fragment, and every theorem that talks about match results is scoped, via
`regexMeta`, to such queries.  The fragment is enough to express both the
intended behaviour (plain substring search for metacharacter-free queries)
and the divergence (metacharacters are interpreted, not matched
literally). -/

/-- JavaScript `String.prototype.trim()`: strip whitespace from both ends. -/
def trimStr (s : String) : String :=
  ⟨((s.data.dropWhile Char.isWhitespace).reverse.dropWhile Char.isWhitespace).reverse⟩

/-- Match a `$regex` pattern against the start of a character list,
case-insensitively (option `'i'`), for the literal+dot fragment: `.`
matches any character, anything else matches itself.  On a pattern that
contains a metacharacter other than `.` (star, plus, question mark,
brackets, parentheses, braces, caret, dollar, bar, backslash) this
matcher diverges from the handler's regex engine, so facts about match
results are only claimed for fragment patterns (see `regexMeta`). -/
def patMatchAux : List Char → List Char → Bool
  | [], _ => true
  | _ :: _, [] => false
  | p :: ps, c :: cs => (p == '.' || p.toLower == c.toLower) && patMatchAux ps cs

/-- Unanchored, case-insensitive `$regex` containment for the literal+dot
fragment: some suffix of `s` starts with a match of `pat`.  Faithful to the
handler only for fragment patterns (see `patMatchAux`). -/
def regexContains (pat s : String) : Bool :=
  s.data.tails.any (fun t => patMatchAux pat.data t)

/-- The characters the PCRE-style engine behind MongoDB `$regex` treats
specially (by code point): backslash 92, dollar 36, dot 46, caret 94,
bar 124, question mark 63, star 42, plus 43, the parentheses 40/41, the
square brackets 91/93 and the curly brackets 123/125.  A query is inside
the modelled fragment when every character either is not in this set or
is the dot. -/
def regexMeta (c : Char) : Bool :=
  ([92, 36, 46, 94, 124, 63, 42, 43, 40, 41, 91, 93, 123, 125] :
    List Nat).contains c.toNat

/-- Literal (no metacharacter) case-insensitive match at the start of a
character list. -/
def litMatchAux : List Char → List Char → Bool
  | [], _ => true
  | _ :: _, [] => false
  | p :: ps, c :: cs => (p.toLower == c.toLower) && litMatchAux ps cs

/-- Case-insensitive literal substring containment — the spec's reading
("username contains the query as a partial, case-insensitive match"),
stated independently of the `$regex` interpretation for comparison. -/
def containsCI (q s : String) : Bool :=
  s.data.tails.any (fun t => litMatchAux q.data t)

/-- The search handler: rejects a query whose trim is shorter than 2
characters with a 400 (`.error`), otherwise returns
`User.find({username: {$regex: query.trim(), $options: 'i'}, _id: {$ne: req.user._id}}).limit(20)`.
(The `!query` falsy guard in the source is subsumed: an empty string trims
to length 0 < 2.)  The matcher is the literal+dot fragment of `$regex`, so
this embedding coincides with the handler exactly on queries whose
characters are all non-metacharacters or the dot; theorems about the
returned set carry that side condition. -/
def searchUsers (db : DB) (callerId : Nat) (query : String) :
    Except String (List UserR) :=
  if (trimStr query).length < 2 then
    .error "Search query must be at least 2 characters long"
  else
    .ok ((db.users.filter
      (fun u => regexContains (trimStr query) u.username && u.id != callerId)).take 20)

/-! ## GET /api/messages/conversation/:userId (routes/messages.js) -/

/-- `.sort({createdAt: -1})`: newest first. -/
def msgNewerFirst (a b : Message) : Prop := b.createdAt ≤ a.createdAt

instance : DecidableRel msgNewerFirst := fun _ _ => Nat.decLe _ _

instance : IsTotal Message msgNewerFirst := ⟨fun _ _ => Nat.le_total _ _⟩

instance : IsTrans Message msgNewerFirst :=
  ⟨fun _ _ _ h1 h2 => Nat.le_trans h2 h1⟩

/-- The messages exchanged between `cur` and `other`
(`$or: [{sender: cur, recipient: other}, {sender: other, recipient: cur}]`). -/
def pairMessages (msgs : List Message) (cur other : Nat) : List Message :=
  msgs.filter (fun m => (m.sender == cur && m.recipient == other)
    || (m.sender == other && m.recipient == cur))

/-- The per-document effect of
`Message.updateMany({sender: other, recipient: cur, isRead: false}, {isRead: true, readAt: now})`:
a document matching the filter gets `isRead := true, readAt := now`, any
other document is untouched. -/
def readStamp (other cur now : Nat) (m : Message) : Message :=
  if m.sender == other && m.recipient == cur && m.isRead == false then
    { m with isRead := true, readAt := some now }
  else m

/-- The bulk read-marking side effect of the conversation fetch: the
`updateMany` applied across the whole collection. -/
def markConvRead (msgs : List Message) (other cur : Nat) (now : Nat) :
    List Message :=
  msgs.map (readStamp other cur now)

/-- The conversation-fetch handler: requires
`currentUser.friends.includes(otherUserId)` (else 403, modelled as `none`),
retrieves the requested page of pair messages newest-first, reverses it to
oldest-first, and marks every unread message from `other` to `cur` as read.
MongoDB applies `skip` before `limit` regardless of call order. -/
def fetchConversation (db : DB) (cur other page limit now : Nat) :
    Option (List Message × DB) :=
  if (findUser db cur).elim false (fun u => u.friends.contains other) then
    some
      (((((pairMessages db.messages cur other).insertionSort msgNewerFirst).drop
          ((page - 1) * limit)).take limit).reverse,
        { db with messages := markConvRead db.messages other cur now })
  else
    none

/-- `GET /api/messages/unread/count`:
`Message.countDocuments({recipient: user, isRead: false})`. -/
def unreadCount (db : DB) (uid : Nat) : Nat :=
  (db.messages.filter (fun m => m.recipient == uid && !m.isRead)).length

/-! ## PUT /api/friends/request/:id/accept (routes/friends.js)

The accept handler is a non-atomic sequence of storage operations:
a `findOne({_id, recipient, status: 'pending'})` guard, then
`friendRequest.save()` with status `accepted`, then two
`findByIdAndUpdate(..., {$addToSet: {friends: ...}})`.  The guard and the
writes are separate `await`ed calls, so an interleaving may run both
guards of two concurrent accepts before either write. -/

/-- MongoDB `$addToSet`: append the value only if it is absent. -/
def addToSet (l : List Nat) (x : Nat) : List Nat :=
  if l.contains x then l else l ++ [x]

/-- The per-user effect of
`User.findByIdAndUpdate(target, {$addToSet: {friends: friendId}})`. -/
def stampFriend (target friendId : Nat) (v : UserR) : UserR :=
  if v.id == target then { v with friends := addToSet v.friends friendId }
  else v

/-- `User.findByIdAndUpdate(uid, f)`: apply `f` to the user document(s)
whose `_id` is `uid`. -/
def updateUserById (users : List UserR) (uid : Nat) (f : UserR → UserR) :
    List UserR :=
  users.map (fun v => if v.id == uid then f v else v)

/-- The guard (read) phase of the accept handler:
`FriendRequest.findOne({_id: rid, recipient: uid, status: 'pending'})`. -/
def acceptGuard (db : DB) (rid uid : Nat) : Option FriendRequest :=
  db.requests.find?
    (fun r => r.id == rid && r.recipient == uid && r.status == "pending")

/-- The write phase of the accept handler: save the guarded request `r`
back with status `accepted`, then `$addToSet` each party into the other's
friends array.  Under a race this phase may run against a state newer than
the one the guard read. -/
def acceptCommit (db : DB) (r : FriendRequest) (uid : Nat) : DB :=
  { db with
    requests := db.requests.map
      (fun q => if q.id == r.id then { q with status := "accepted" } else q),
    users := updateUserById
      (updateUserById db.users uid
        (fun v => { v with friends := addToSet v.friends r.sender }))
      r.sender (fun v => { v with friends := addToSet v.friends uid }) }

/-- The accept handler run without interference: guard and commit against
the same state.  `none` models the 404 "Friend request not found". -/
def acceptRequest (db : DB) (rid uid : Nat) : Option DB :=
  (acceptGuard db rid uid).map (fun r => acceptCommit db r uid)

/-- Two concurrent accepts of the same request interleaved so that both
`findOne` guards read the initial state before either write runs — an
interleaving the non-atomic handler permits.  Returns the success flag of
each attempt and the final state. -/
def doubleAcceptRace (db : DB) (rid uid1 uid2 : Nat) : Bool × Bool × DB :=
  match acceptGuard db rid uid1, acceptGuard db rid uid2 with
  | some r1, some r2 => (true, true, acceptCommit (acceptCommit db r1 uid1) r2 uid2)
  | some r1, none => (true, false, acceptCommit db r1 uid1)
  | none, some r2 => (false, true, acceptCommit db r2 uid2)
  | none, none => (false, false, db)

/-! ## POST /api/friends/request (routes/friends.js) -/

/-- The `{type, message}` result of
`FriendRequest.checkExistingRelation` (models/FriendRequest.js). -/
structure RelationCheck where
  type : String
  message : String
  deriving Repr, DecidableEq

/-- `FriendRequest.checkExistingRelation(senderId, recipientId)`: reports
already-friends, a pending request in either direction (distinguishing
who sent it), or `none`.  Only documents with `status: 'pending'` are
consulted — accepted or rejected requests never block here. -/
def checkExistingRelation (db : DB) (senderId recipientId : Nat) :
    RelationCheck :=
  if (findUser db senderId).elim false
      (fun u => u.friends.contains recipientId) then
    ⟨"friends", "You are already friends with this user"⟩
  else
    match db.requests.find? (fun r =>
        ((r.sender == senderId && r.recipient == recipientId)
          || (r.sender == recipientId && r.recipient == senderId))
        && r.status == "pending") with
    | some ex =>
      if ex.sender == senderId then ⟨"sent", "Friend request already sent"⟩
      else ⟨"received", "You have a pending friend request from this user"⟩
    | none => ⟨"none", "No existing relation"⟩

/-- `friendRequest.save()` for a new document under the schema's unique
index `{sender: 1, recipient: 1}`: the insert throws a duplicate-key error
(`.error`) whenever any document — of any status — already has the same
ordered (sender, recipient) pair. -/
def saveFriendRequest (db : DB) (fr : FriendRequest) : Except Unit DB :=
  if db.requests.any
      (fun r => r.sender == fr.sender && r.recipient == fr.recipient) then
    .error ()
  else
    .ok { db with requests := db.requests ++ [fr] }

/-- The HTTP outcome of the send-friend-request handler. -/
inductive SendReqResult where
  | badRequest (msg : String)
  | notFound (msg : String)
  | created (db : DB)
  | serverError (msg : String)
  deriving Repr, DecidableEq

/-- The send-friend-request handler, with its read phase (recipient lookup
and `checkExistingRelation`) evaluated against `checkDb` and its
`friendRequest.save()` applied to `saveDb`.  Sequentially the two states
coincide; under a race another request may have committed in between.
A thrown duplicate-key error lands in the handler's generic catch block,
which answers 500 "Server error".  (Ids are `Nat`, so the source's
missing-`recipientId` 400 guard has no counterpart here.) -/
def sendFriendRequestAt (checkDb saveDb : DB) (senderId recipientId : Nat)
    (message : String) (newId now : Nat) : SendReqResult :=
  if senderId == recipientId then
    .badRequest "You cannot send a friend request to yourself"
  else
    match findUser checkDb recipientId with
    | none => .notFound "User not found"
    | some _ =>
      if (checkExistingRelation checkDb senderId recipientId).type != "none" then
        .badRequest (checkExistingRelation checkDb senderId recipientId).message
      else
        match saveFriendRequest saveDb
            { id := newId, sender := senderId, recipient := recipientId,
              status := "pending", message := message, createdAt := now } with
        | .ok db' => .created db'
        | .error _ => .serverError "Server error"

/-- The send-friend-request handler run without interference. -/
def sendFriendRequest (db : DB) (senderId recipientId : Nat)
    (message : String) (newId now : Nat) : SendReqResult :=
  sendFriendRequestAt db db senderId recipientId message newId now

/-! ## GET /api/messages/conversations (routes/messages.js) -/

/-- `$match: {$or: [{sender: userId}, {recipient: userId}]}`. -/
def involves (uid : Nat) (m : Message) : Bool :=
  m.sender == uid || m.recipient == uid

/-- The `$group` key:
`$cond: [{$eq: ['$sender', userId]}, '$recipient', '$sender']`. -/
def counterpart (uid : Nat) (m : Message) : Nat :=
  if m.sender == uid then m.recipient else m.sender

/-- The distinct group keys the aggregation produces for `uid`. -/
def counterparts (msgs : List Message) (uid : Nat) : List Nat :=
  ((msgs.filter (involves uid)).map (counterpart uid)).dedup

/-- The group of matched documents with key `c`. -/
def convGroup (msgs : List Message) (uid c : Nat) : List Message :=
  msgs.filter (fun m => involves uid m && counterpart uid m == c)

/-- The `$project`ed public brief of the counterpart
(`{_id, username, avatar, status, lastSeen}`). -/
structure UserBrief where
  id : Nat
  username : String
  avatar : String
  status : String
  lastSeen : Nat
  deriving Repr, DecidableEq

/-- Project a user document to its public brief. -/
def toBrief (u : UserR) : UserBrief :=
  ⟨u.id, u.username, u.avatar, u.status, u.lastSeen⟩

/-- The `$project`ed `lastMessage` (`{content, createdAt, sender}`). -/
structure LastMsg where
  content : String
  createdAt : Nat
  sender : Nat
  deriving Repr, DecidableEq

/-- Project a message document to the `lastMessage` shape. -/
def toLastMsg (m : Message) : LastMsg :=
  ⟨m.content, m.createdAt, m.sender⟩

/-- One element of the aggregation output: group `_id` (the counterpart),
the joined user brief, the latest message, and the unread count. -/
structure ConvEntry where
  key : Nat
  user : UserBrief
  lastMessage : LastMsg
  unreadCount : Nat
  deriving Repr, DecidableEq

/-- The final `$sort: {'lastMessage.createdAt': -1}` order. -/
def convNewerFirst (a b : ConvEntry) : Prop :=
  b.lastMessage.createdAt ≤ a.lastMessage.createdAt

instance : DecidableRel convNewerFirst := fun _ _ => Nat.decLe _ _

instance : IsTotal ConvEntry convNewerFirst := ⟨fun _ _ => Nat.le_total _ _⟩

instance : IsTrans ConvEntry convNewerFirst :=
  ⟨fun _ _ _ h1 h2 => Nat.le_trans h2 h1⟩

/-- Build the output element for group key `c`: after the
`$sort: {createdAt: -1}`, `$first: '$$ROOT'` takes the newest group
member; `$sum` counts the group's unread documents addressed to `uid`;
`$lookup` + `$unwind` joins the counterpart's user document and silently
drops the group when that user does not exist. -/
def convEntryFor (db : DB) (uid c : Nat) : Option ConvEntry :=
  match findUser db c,
      ((convGroup db.messages uid c).insertionSort msgNewerFirst).head? with
  | some u, some m =>
    some ⟨c, toBrief u, toLastMsg m,
      (convGroup db.messages uid c).countP
        (fun m => m.recipient == uid && m.isRead == false)⟩
  | _, _ => none

/-- The whole `GET /api/messages/conversations` aggregation pipeline. -/
def listConversations (db : DB) (uid : Nat) : List ConvEntry :=
  ((counterparts db.messages uid).filterMap
    (convEntryFor db uid)).insertionSort convNewerFirst

/-! ## Socket.IO layer (server.js)

`connectedUsers` is a JS `Map` from user id to socket id, and each socket
carries a mutable `userId` field; both are modelled as partial functions.
The handlers only append to an event log and touch the two maps — none of
them reads or writes the database. -/

/-- An emission of the Socket.IO layer: the `user_online`/`user_offline`
broadcasts and the targeted `receive_message` event. -/
inductive SEvent where
  | userOnline (uid : Nat)
  | userOffline (uid : Nat)
  | receiveMessage (toSocket senderId : Nat) (message : String)
  deriving Repr, DecidableEq

/-- JS `Map.set` / field assignment: overwrite-or-insert. -/
def mapSet (m : Nat → Option Nat) (k v : Nat) : Nat → Option Nat :=
  fun x => if x = k then some v else m x

/-- JS `Map.delete`. -/
def mapDelete (m : Nat → Option Nat) (k : Nat) : Nat → Option Nat :=
  fun x => if x = k then none else m x

/-- The state of the real-time layer: the `connectedUsers` map, the
`socket.userId` fields keyed by socket id, the emitted events, and the
database (which no socket handler touches). -/
structure SocketState where
  connectedUsers : Nat → Option Nat
  socketUser : Nat → Option Nat
  events : List SEvent
  db : DB

/-- `socket.on('join')`: `connectedUsers.set(userId, socket.id)`,
`socket.userId = userId`, then broadcast `user_online` — unconditionally,
every time. -/
def onJoin (s : SocketState) (uid sid : Nat) : SocketState :=
  { s with
    connectedUsers := mapSet s.connectedUsers uid sid,
    socketUser := mapSet s.socketUser sid uid,
    events := s.events ++ [SEvent.userOnline uid] }

/-- `socket.on('send_message')`: look the recipient up in `connectedUsers`
and, if connected, emit `receive_message` straight to that socket.  No
friendship check is consulted and nothing is persisted — the database
component is untouched. -/
def onSendMessage (s : SocketState) (senderId recipientId : Nat)
    (message : String) : SocketState :=
  match s.connectedUsers recipientId with
  | some rsid =>
    { s with events := s.events ++ [SEvent.receiveMessage rsid senderId message] }
  | none => s

/-- `socket.on('disconnect')`: if this socket ever joined
(`socket.userId` set), delete that identity's entry from `connectedUsers`
— whether or not the entry still points at this socket — and broadcast
`user_offline`. -/
def onDisconnect (s : SocketState) (sid : Nat) : SocketState :=
  match s.socketUser sid with
  | some uid =>
    { s with
      connectedUsers := mapDelete s.connectedUsers uid,
      events := s.events ++ [SEvent.userOffline uid] }
  | none => s

/-- The friendship test the REST gateway enforces
(`sender.friends.includes(recipientId)`), for stating what the socket
path skips. -/
def areFriends (db : DB) (a b : Nat) : Bool :=
  (findUser db a).elim false (fun u => u.friends.contains b)

/-! ## Concrete sample data used to instantiate theorems -/

/-- A user with the given id, username and friends list and default
profile fields. -/
def mkUser (i : Nat) (un : String) (fr : List Nat) : UserR :=
  { id := i, username := un, email := "", avatar := "", bio := "",
    status := "offline", lastSeen := 0, friends := fr }

/-- A text message with the given id, endpoints, content, read flag and
creation time. -/
def mkMsg (i s r : Nat) (c : String) (rd : Bool) (t : Nat) : Message :=
  { id := i, sender := s, recipient := r, content := c,
    messageType := "text", isRead := rd, readAt := none,
    isEdited := false, editedAt := none, createdAt := t }

/-- A friend request with the given id, endpoints and status. -/
def mkReq (i s rcp : Nat) (st : String) : FriendRequest :=
  { id := i, sender := s, recipient := rcp, status := st,
    message := "", createdAt := 0 }

/-- A two-user store where friends 1 and 2 have exchanged one unread
message in each direction. -/
def dbConvSample : DB :=
  ⟨[mkUser 1 "a" [2], mkUser 2 "b" [1]], [],
   [mkMsg 1 1 2 "hi" false 10, mkMsg 2 2 1 "yo" false 20]⟩

/-! # Theorems -/

/-! ## C10 — status update frame -/

/-- C10: updating the caller's durable status to a valid value
(`online`, `offline`, `away`) also overwrites `lastSeen` with the current
time, and changes no other field of the user. -/
theorem updateStatus_sets_status_lastSeen_only (u : UserR) (status : String)
    (now : Nat)
    (h : (["online", "offline", "away"] : List String).contains status = true) :
    ∃ u', updateStatus u status now = some u' ∧
      u'.status = status ∧ u'.lastSeen = now ∧
      u'.id = u.id ∧ u'.username = u.username ∧ u'.email = u.email ∧
      u'.avatar = u.avatar ∧ u'.bio = u.bio ∧ u'.friends = u.friends := by
  exact ⟨{ u with status := status, lastSeen := now },
    by simp only [updateStatus, h]; simp,
    rfl, rfl, rfl, rfl, rfl, rfl, rfl, rfl⟩

/-- C10 witness: the theorem applied to a concrete user and status. -/
theorem updateStatus_sets_status_lastSeen_only_witness :
    (["online", "offline", "away"] : List String).contains "away" = true ∧
    ∃ u', updateStatus (mkUser 1 "alice" [2]) "away" 5 = some u' ∧
      u'.status = "away" ∧ u'.lastSeen = 5 ∧
      u'.id = (mkUser 1 "alice" [2]).id ∧
      u'.username = (mkUser 1 "alice" [2]).username ∧
      u'.email = (mkUser 1 "alice" [2]).email ∧
      u'.avatar = (mkUser 1 "alice" [2]).avatar ∧
      u'.bio = (mkUser 1 "alice" [2]).bio ∧
      u'.friends = (mkUser 1 "alice" [2]).friends :=
  ⟨by decide, updateStatus_sets_status_lastSeen_only (mkUser 1 "alice" [2])
    "away" 5 (by decide)⟩

/-! ## C9 — user search -/

/-- On a pattern free of the `.` metacharacter, the `$regex` matcher and the
literal matcher agree. -/
theorem patMatchAux_eq_litMatchAux (p : List Char) (hp : ∀ c ∈ p, c ≠ '.') :
    ∀ s, patMatchAux p s = litMatchAux p s := by
  induction p with
  | nil => intro s; cases s <;> rfl
  | cons a ps ih =>
    intro s
    cases s with
    | nil => rfl
    | cons c cs =>
      have ha : (a == '.') = false :=
        beq_eq_false_iff_ne.mpr (hp a (List.mem_cons_self a ps))
      simp [patMatchAux, litMatchAux, ha,
        ih (fun x hx => hp x (List.mem_cons_of_mem a hx))]

/-- C9 counterexample: the claim says the returned users are exactly those
whose username *contains* the query as a case-insensitive partial match.
With the single user `xy` and the valid-length query `x.`, the handler
returns that user (the query is interpreted as a regex, `.` matching any
character), yet `xy` does not contain the literal text `x.`. -/
theorem searchUsers_counterexample :
    ¬ (trimStr "x.").length < 2 ∧
    searchUsers ⟨[mkUser 1 "xy" []], [], []⟩ 0 "x." = .ok [mkUser 1 "xy" []] ∧
    containsCI (trimStr "x.") (mkUser 1 "xy" []).username = false :=
  ⟨by decide, rfl, by decide⟩

/-- C9 (amended): a trimmed query shorter than 2 characters fails with the
validation error, whatever the query.  For a query inside the modelled
regex fragment — every character either not a `$regex` metacharacter or
the `.` wildcard — the result has at most 20 users, excludes the caller,
and consists exactly (up to the cap) of the users whose username matches
the trimmed query interpreted as a case-insensitive regular expression,
`.` matching any character; and whenever the query contains no regex
metacharacter at all, that regex match coincides with literal
case-insensitive substring containment. -/
theorem searchUsers_spec (db : DB) (callerId : Nat) (query : String) :
    ((trimStr query).length < 2 →
      searchUsers db callerId query =
        .error "Search query must be at least 2 characters long") ∧
    ((∀ ch ∈ (trimStr query).data, regexMeta ch = false ∨ ch = '.') →
      ¬ (trimStr query).length < 2 →
      ∀ l, searchUsers db callerId query = .ok l →
        l.length ≤ 20 ∧
        (∀ u ∈ l, u.id ≠ callerId ∧
          regexContains (trimStr query) u.username = true) ∧
        (∀ u ∈ db.users, u.id ≠ callerId →
          regexContains (trimStr query) u.username = true →
          l.length < 20 → u ∈ l)) ∧
    ((∀ ch ∈ (trimStr query).data, regexMeta ch = false) →
      ∀ s, regexContains (trimStr query) s = containsCI (trimStr query) s) := by
  refine ⟨fun h => by simp [searchUsers, h], fun _ h l hl => ?_,
    fun hmeta s => ?_⟩
  · simp only [searchUsers, if_neg h, Except.ok.injEq] at hl
    subst hl
    refine ⟨?_, fun u hu => ?_, fun u hu hne hreg hlen => ?_⟩
    · simp [List.length_take]
    · have hu' := List.mem_filter.mp (List.mem_of_mem_take hu)
      have := hu'.2
      simp only [Bool.and_eq_true, bne_iff_ne, ne_eq] at this
      exact ⟨this.2, this.1⟩
    · have hlt : (db.users.filter (fun u => regexContains (trimStr query) u.username
          && u.id != callerId)).length < 20 := by
        rw [List.length_take] at hlen
        omega
      rw [List.take_of_length_le (le_of_lt hlt)]
      exact List.mem_filter.mpr ⟨hu, by simp [hreg, hne]⟩
  · have hnd : ∀ ch ∈ (trimStr query).data, ch ≠ '.' := by
      intro ch hch heq
      have h1 := hmeta ch hch
      rw [heq] at h1
      exact absurd h1 (by decide)
    simp only [regexContains, containsCI]
    congr 1
    funext t
    exact patMatchAux_eq_litMatchAux _ hnd t

/-- C9 witness: the amended theorem applied to a concrete store and the
metacharacter-free query `ab`, which matches username `xABy`
case-insensitively. -/
theorem searchUsers_spec_witness :
    (∀ ch ∈ (trimStr "ab").data, regexMeta ch = false ∨ ch = '.') ∧
    ¬ (trimStr "ab").length < 2 ∧
    ([mkUser 1 "xABy" []].length ≤ 20 ∧
      (∀ u ∈ [mkUser 1 "xABy" []], u.id ≠ 0 ∧
        regexContains (trimStr "ab") u.username = true) ∧
      (∀ u ∈ (⟨[mkUser 1 "xABy" []], [], []⟩ : DB).users, u.id ≠ 0 →
        regexContains (trimStr "ab") u.username = true →
        [mkUser 1 "xABy" []].length < 20 → u ∈ [mkUser 1 "xABy" []])) :=
  ⟨by decide, by decide,
    (searchUsers_spec ⟨[mkUser 1 "xABy" []], [], []⟩ 0 "ab").2.1
      (by decide) (by decide) [mkUser 1 "xABy" []] rfl⟩

/-! ## C4 — conversation fetch marks the whole unread backlog read -/

/-- A message outside the `updateMany` filter (not an unread message from
`other` to `cur`) is untouched by the read-stamping. -/
theorem readStamp_eq_self (other cur now : Nat) (m : Message)
    (hn : ¬(m.sender = other ∧ m.recipient = cur ∧ m.isRead = false)) :
    readStamp other cur now m = m := by
  have hc : (m.sender == other && m.recipient == cur && m.isRead == false)
      = false := by
    by_contra hcc
    rw [Bool.not_eq_false] at hcc
    simp only [Bool.and_eq_true, beq_iff_eq] at hcc
    exact hn ⟨hcc.1.1, hcc.1.2, hcc.2⟩
  simp only [readStamp, hc]
  simp

/-- C4: when `A` and `B` are friends, `fetchConversation(A, B, page, limit)`
succeeds and, whatever the requested page, afterwards every previously
unread message from `B` to `A` is read with `readAt` set (all other fields
kept), every other message — `A` to `B` or involving other users — is
unchanged, and `A`'s unread count no longer counts any `B`-originated
message (it equals the count of unread messages to `A` from senders other
than `B`). -/
theorem fetchConversation_marks_all_unread (db : DB) (A B page limit now : Nat)
    (hf : (findUser db A).elim false (fun u => u.friends.contains B) = true) :
    ∃ pg db', fetchConversation db A B page limit now = some (pg, db') ∧
      List.Forall₂ (fun m m' =>
        (m.sender = B ∧ m.recipient = A ∧ m.isRead = false →
          m'.isRead = true ∧ m'.readAt = some now ∧
          m'.id = m.id ∧ m'.sender = m.sender ∧ m'.recipient = m.recipient ∧
          m'.content = m.content ∧ m'.messageType = m.messageType ∧
          m'.isEdited = m.isEdited ∧ m'.editedAt = m.editedAt ∧
          m'.createdAt = m.createdAt) ∧
        (¬(m.sender = B ∧ m.recipient = A ∧ m.isRead = false) → m' = m))
        db.messages db'.messages ∧
      unreadCount db' A =
        (db.messages.filter
          (fun m => m.recipient == A && !m.isRead && !(m.sender == B))).length := by
  refine ⟨((((pairMessages db.messages A B).insertionSort msgNewerFirst).drop
      ((page - 1) * limit)).take limit).reverse,
    { db with messages := markConvRead db.messages B A now },
    by simp only [fetchConversation, hf]; simp, ?_, ?_⟩
  · show List.Forall₂ _ db.messages (db.messages.map (readStamp B A now))
    rw [List.forall₂_map_right_iff, List.forall₂_same]
    intro m _
    constructor
    · rintro ⟨h1, h2, h3⟩
      simp [readStamp, h1, h2, h3]
    · exact readStamp_eq_self B A now m
  · show (List.filter _ (db.messages.map (readStamp B A now))).length = _
    rw [← List.countP_eq_length_filter, ← List.countP_eq_length_filter,
      List.countP_map]
    apply List.countP_congr
    intro m _
    cases hb : (m.sender == B) <;> cases hr : (m.recipient == A) <;>
      cases hi : m.isRead <;>
      simp [readStamp, Function.comp, hb, hr, hi]

/-- C4 witness: the theorem applied to a concrete store in which friends
`1` and `2` have one unread message from `2` to `1`. -/
theorem fetchConversation_marks_all_unread_witness :
    (findUser ⟨[mkUser 1 "a" [2], mkUser 2 "b" [1]], [],
        [mkMsg 1 2 1 "yo" false 10]⟩ 1).elim false
      (fun u => u.friends.contains 2) = true ∧
    ∃ pg db', fetchConversation ⟨[mkUser 1 "a" [2], mkUser 2 "b" [1]], [],
        [mkMsg 1 2 1 "yo" false 10]⟩ 1 2 1 50 99 = some (pg, db') ∧
      List.Forall₂ (fun m m' =>
        (m.sender = 2 ∧ m.recipient = 1 ∧ m.isRead = false →
          m'.isRead = true ∧ m'.readAt = some 99 ∧
          m'.id = m.id ∧ m'.sender = m.sender ∧ m'.recipient = m.recipient ∧
          m'.content = m.content ∧ m'.messageType = m.messageType ∧
          m'.isEdited = m.isEdited ∧ m'.editedAt = m.editedAt ∧
          m'.createdAt = m.createdAt) ∧
        (¬(m.sender = 2 ∧ m.recipient = 1 ∧ m.isRead = false) → m' = m))
        (⟨[mkUser 1 "a" [2], mkUser 2 "b" [1]], [],
          [mkMsg 1 2 1 "yo" false 10]⟩ : DB).messages db'.messages ∧
      unreadCount db' 1 =
        ((⟨[mkUser 1 "a" [2], mkUser 2 "b" [1]], [],
          [mkMsg 1 2 1 "yo" false 10]⟩ : DB).messages.filter
          (fun m => m.recipient == 1 && !m.isRead && !(m.sender == 2))).length :=
  ⟨by decide, fetchConversation_marks_all_unread
    ⟨[mkUser 1 "a" [2], mkUser 2 "b" [1]], [], [mkMsg 1 2 1 "yo" false 10]⟩
    1 2 1 50 99 (by decide)⟩

/-! ## C7 — accept inserts a symmetric, idempotent friend edge -/

/-- The two sequential `findByIdAndUpdate` calls of the accept handler act
on each user document as the composition of two `stampFriend` passes. -/
theorem acceptCommit_users (db : DB) (r : FriendRequest) (uid : Nat) :
    (acceptCommit db r uid).users
      = db.users.map
          (fun v => stampFriend r.sender uid (stampFriend uid r.sender v)) := by
  simp only [acceptCommit, updateUserById, List.map_map]
  rfl

/-- Membership in `$addToSet`: the old elements plus the new value. -/
theorem addToSet_mem (l : List Nat) (x y : Nat) :
    y ∈ addToSet l x ↔ y ∈ l ∨ y = x := by
  unfold addToSet
  by_cases hc : x ∈ l
  · rw [if_pos (List.elem_iff.mpr hc)]
    constructor
    · exact Or.inl
    · rintro (h | rfl)
      · exact h
      · exact hc
  · rw [if_neg (fun hcc => hc (List.elem_iff.mp hcc))]
    simp

/-- After `$addToSet` on a duplicate-free array the value occurs exactly
once. -/
theorem addToSet_count_self (l : List Nat) (x : Nat) (h : l.Nodup) :
    (addToSet l x).count x = 1 := by
  unfold addToSet
  by_cases hc : x ∈ l
  · rw [if_pos (List.elem_iff.mpr hc)]
    exact List.count_eq_one_of_mem h hc
  · rw [if_neg (fun hcc => hc (List.elem_iff.mp hcc))]
    simp [List.count_eq_zero.mpr hc]

/-- `$addToSet` of a value already present is the identity. -/
theorem addToSet_of_mem (l : List Nat) (x : Nat) (h : x ∈ l) :
    addToSet l x = l :=
  if_pos (List.elem_iff.mpr h)

/-- `stampFriend` never changes the `_id`. -/
theorem stampFriend_id (t f : Nat) (v : UserR) :
    (stampFriend t f v).id = v.id := by
  unfold stampFriend
  split_ifs <;> rfl

/-- `stampFriend` leaves every other user document untouched. -/
theorem stampFriend_of_ne (t f : Nat) (v : UserR) (h : v.id ≠ t) :
    stampFriend t f v = v := by
  unfold stampFriend
  rw [if_neg (by simp [h])]

/-- `stampFriend` on the targeted user adds the friend id to its set. -/
theorem stampFriend_of_eq (t f : Nat) (v : UserR) (h : v.id = t) :
    stampFriend t f v = { v with friends := addToSet v.friends f } := by
  unfold stampFriend
  rw [if_pos (by simp [h])]

/-- `stampFriend` never removes friends. -/
theorem stampFriend_friends_mono (t f : Nat) (v : UserR) (y : Nat)
    (h : y ∈ v.friends) : y ∈ (stampFriend t f v).friends := by
  unfold stampFriend
  split_ifs <;> simp [addToSet_mem, h]

/-- C7: when the accept guard succeeds for request `r` (and the request is
not a self-request), the handler succeeds; afterwards the sender occurs
exactly once in the acting user's friends set and vice versa; each affected
friends set is the `$addToSet` of its old value — so a party already
present leaves that set unchanged (idempotence) — and the symmetry of the
friends relation is preserved. -/
theorem acceptRequest_mutual_once (db : DB) (rid uid : Nat) (r : FriendRequest)
    (hg : acceptGuard db rid uid = some r)
    (hfr : ∀ v ∈ db.users, v.friends.Nodup)
    (hsne : r.sender ≠ uid) :
    ∃ db', acceptRequest db rid uid = some db' ∧
      (∀ v' ∈ db'.users,
        (v'.id = uid → v'.friends.count r.sender = 1) ∧
        (v'.id = r.sender → v'.friends.count uid = 1)) ∧
      (∀ v' ∈ db'.users, v'.id = uid →
        ∃ v ∈ db.users, v.id = uid ∧
          v'.friends = addToSet v.friends r.sender ∧
          (r.sender ∈ v.friends → v'.friends = v.friends)) ∧
      (∀ v' ∈ db'.users, v'.id = r.sender →
        ∃ v ∈ db.users, v.id = r.sender ∧
          v'.friends = addToSet v.friends uid ∧
          (uid ∈ v.friends → v'.friends = v.friends)) ∧
      ((∀ v ∈ db.users, ∀ w ∈ db.users, v.id ∈ w.friends → w.id ∈ v.friends) →
        ∀ v' ∈ db'.users, ∀ w' ∈ db'.users,
          v'.id ∈ w'.friends → w'.id ∈ v'.friends) := by
  have hstamp : ∀ v : UserR,
      (v.id = uid → stampFriend r.sender uid (stampFriend uid r.sender v)
        = { v with friends := addToSet v.friends r.sender }) ∧
      (v.id = r.sender → stampFriend r.sender uid (stampFriend uid r.sender v)
        = { v with friends := addToSet v.friends uid }) ∧
      (v.id ≠ uid → v.id ≠ r.sender →
        stampFriend r.sender uid (stampFriend uid r.sender v) = v) := by
    intro v
    refine ⟨fun h => ?_, fun h => ?_, fun h1 h2 => ?_⟩
    · rw [stampFriend_of_eq uid r.sender v h]
      exact stampFriend_of_ne _ _ _
        (show v.id ≠ r.sender by rw [h]; exact Ne.symm hsne)
    · rw [stampFriend_of_ne uid r.sender v (show v.id ≠ uid by rw [h]; exact hsne)]
      exact stampFriend_of_eq _ _ _ h
    · rw [stampFriend_of_ne uid r.sender v h1]
      exact stampFriend_of_ne _ _ _ h2
  refine ⟨acceptCommit db r uid, by simp [acceptRequest, hg], ?_, ?_, ?_, ?_⟩
  · intro v' hv'
    rw [acceptCommit_users] at hv'
    obtain ⟨v, hv, rfl⟩ := List.mem_map.mp hv'
    constructor
    · intro hid
      rw [stampFriend_id, stampFriend_id] at hid
      rw [(hstamp v).1 hid]
      exact addToSet_count_self _ _ (hfr v hv)
    · intro hid
      rw [stampFriend_id, stampFriend_id] at hid
      rw [(hstamp v).2.1 hid]
      exact addToSet_count_self _ _ (hfr v hv)
  · intro v' hv' hid
    rw [acceptCommit_users] at hv'
    obtain ⟨v, hv, rfl⟩ := List.mem_map.mp hv'
    rw [stampFriend_id, stampFriend_id] at hid
    refine ⟨v, hv, hid, by rw [(hstamp v).1 hid], fun hmem => ?_⟩
    rw [(hstamp v).1 hid]
    show addToSet v.friends r.sender = v.friends
    exact addToSet_of_mem _ _ hmem
  · intro v' hv' hid
    rw [acceptCommit_users] at hv'
    obtain ⟨v, hv, rfl⟩ := List.mem_map.mp hv'
    rw [stampFriend_id, stampFriend_id] at hid
    refine ⟨v, hv, hid, by rw [(hstamp v).2.1 hid], fun hmem => ?_⟩
    rw [(hstamp v).2.1 hid]
    show addToSet v.friends uid = v.friends
    exact addToSet_of_mem _ _ hmem
  · intro hsym v' hv' w' hw' hvw
    rw [acceptCommit_users] at hv' hw'
    obtain ⟨v, hv, rfl⟩ := List.mem_map.mp hv'
    obtain ⟨w, hw, rfl⟩ := List.mem_map.mp hw'
    rw [stampFriend_id, stampFriend_id] at hvw ⊢
    by_cases hwu : w.id = uid
    · rw [(hstamp w).1 hwu] at hvw
      rcases (addToSet_mem _ _ _).mp hvw with hin | heq
      · exact stampFriend_friends_mono _ _ _ _
          (stampFriend_friends_mono _ _ _ _ (hsym v hv w hw hin))
      · rw [(hstamp v).2.1 heq, hwu]
        exact (addToSet_mem _ _ _).mpr (Or.inr rfl)
    · by_cases hws : w.id = r.sender
      · rw [(hstamp w).2.1 hws] at hvw
        rcases (addToSet_mem _ _ _).mp hvw with hin | heq
        · exact stampFriend_friends_mono _ _ _ _
            (stampFriend_friends_mono _ _ _ _ (hsym v hv w hw hin))
        · rw [(hstamp v).1 heq, hws]
          exact (addToSet_mem _ _ _).mpr (Or.inr rfl)
      · rw [(hstamp w).2.2 hwu hws] at hvw
        exact stampFriend_friends_mono _ _ _ _
          (stampFriend_friends_mono _ _ _ _ (hsym v hv w hw hvw))

/-- C7 witness: the theorem applied to a concrete store with a pending
request from user 1 to user 2, accepted by user 2. -/
theorem acceptRequest_mutual_once_witness :
    acceptGuard (⟨[mkUser 1 "a" [], mkUser 2 "b" []],
        [mkReq 10 1 2 "pending"], []⟩ : DB) 10 2
      = some (mkReq 10 1 2 "pending") ∧
    (∀ v ∈ (⟨[mkUser 1 "a" [], mkUser 2 "b" []],
        [mkReq 10 1 2 "pending"], []⟩ : DB).users, v.friends.Nodup) ∧
    (mkReq 10 1 2 "pending").sender ≠ 2 ∧
    (∃ db', acceptRequest (⟨[mkUser 1 "a" [], mkUser 2 "b" []],
        [mkReq 10 1 2 "pending"], []⟩ : DB) 10 2 = some db' ∧
      (∀ v' ∈ db'.users,
        (v'.id = 2 → v'.friends.count (mkReq 10 1 2 "pending").sender = 1) ∧
        (v'.id = (mkReq 10 1 2 "pending").sender → v'.friends.count 2 = 1)) ∧
      (∀ v' ∈ db'.users, v'.id = 2 →
        ∃ v ∈ (⟨[mkUser 1 "a" [], mkUser 2 "b" []],
            [mkReq 10 1 2 "pending"], []⟩ : DB).users, v.id = 2 ∧
          v'.friends = addToSet v.friends (mkReq 10 1 2 "pending").sender ∧
          ((mkReq 10 1 2 "pending").sender ∈ v.friends →
            v'.friends = v.friends)) ∧
      (∀ v' ∈ db'.users, v'.id = (mkReq 10 1 2 "pending").sender →
        ∃ v ∈ (⟨[mkUser 1 "a" [], mkUser 2 "b" []],
            [mkReq 10 1 2 "pending"], []⟩ : DB).users,
          v.id = (mkReq 10 1 2 "pending").sender ∧
          v'.friends = addToSet v.friends 2 ∧
          (2 ∈ v.friends → v'.friends = v.friends)) ∧
      ((∀ v ∈ (⟨[mkUser 1 "a" [], mkUser 2 "b" []],
          [mkReq 10 1 2 "pending"], []⟩ : DB).users,
        ∀ w ∈ (⟨[mkUser 1 "a" [], mkUser 2 "b" []],
          [mkReq 10 1 2 "pending"], []⟩ : DB).users,
          v.id ∈ w.friends → w.id ∈ v.friends) →
        ∀ v' ∈ db'.users, ∀ w' ∈ db'.users,
          v'.id ∈ w'.friends → w'.id ∈ v'.friends)) :=
  ⟨by decide, by decide, by decide,
    acceptRequest_mutual_once (⟨[mkUser 1 "a" [], mkUser 2 "b" []],
        [mkReq 10 1 2 "pending"], []⟩ : DB) 10 2 (mkReq 10 1 2 "pending")
      (by decide) (by decide) (by decide)⟩

/-! ## C2 — accept is not an atomic conditional transition -/

/-- C2 evidence: the accept handler's guard (`findOne`) and mutation
(`save`, `$addToSet`) are separate storage operations, so under a
concurrent double-accept of the same pending request the interleaving that
runs both guards first lets *both* attempts succeed — the claimed
"exactly one succeeds, the other fails not-found" does not hold for the
code.  (The friends sets still end up mutual exactly once thanks to
`$addToSet`, and a later sequential accept does fail not-found.) -/
theorem doubleAcceptRace_both_succeed :
    (doubleAcceptRace (⟨[mkUser 1 "a" [], mkUser 2 "b" []],
        [mkReq 10 1 2 "pending"], []⟩ : DB) 10 2 2).1 = true ∧
    (doubleAcceptRace (⟨[mkUser 1 "a" [], mkUser 2 "b" []],
        [mkReq 10 1 2 "pending"], []⟩ : DB) 10 2 2).2.1 = true ∧
    acceptRequest ((doubleAcceptRace (⟨[mkUser 1 "a" [], mkUser 2 "b" []],
        [mkReq 10 1 2 "pending"], []⟩ : DB) 10 2 2).2.2) 10 2 = none ∧
    ((doubleAcceptRace (⟨[mkUser 1 "a" [], mkUser 2 "b" []],
        [mkReq 10 1 2 "pending"], []⟩ : DB) 10 2 2).2.2).users
      = [mkUser 1 "a" [2], mkUser 2 "b" [1]] := by
  decide

/-! ## C3 — a rejected request still blocks the same direction -/

/-- C3 evidence: with a *rejected* request from 1 to 2 on file, the
application-level relation check reports no blocking relation (only
`pending` counts), yet a brand-new request from 1 to 2 hits the schema's
unconditional unique index on the ordered (sender, recipient) pair: the
insert throws, the catch answers 500 "Server error", and no new pending
request is created — contradicting the claim that it succeeds.  The
opposite direction (2 to 1) does succeed, since its ordered key differs. -/
theorem sendRequest_after_rejected_blocked :
    checkExistingRelation (⟨[mkUser 1 "a" [], mkUser 2 "b" []],
        [mkReq 5 1 2 "rejected"], []⟩ : DB) 1 2
      = ⟨"none", "No existing relation"⟩ ∧
    sendFriendRequest (⟨[mkUser 1 "a" [], mkUser 2 "b" []],
        [mkReq 5 1 2 "rejected"], []⟩ : DB) 1 2 "" 6 0
      = .serverError "Server error" ∧
    sendFriendRequest (⟨[mkUser 1 "a" [], mkUser 2 "b" []],
        [mkReq 5 1 2 "rejected"], []⟩ : DB) 2 1 "" 6 0
      = .created (⟨[mkUser 1 "a" [], mkUser 2 "b" []],
          [mkReq 5 1 2 "rejected", mkReq 6 2 1 "pending"], []⟩ : DB) := by
  decide

/-! ## C8 — a raced duplicate insert surfaces a generic 500 -/

/-- C8 evidence: two concurrent sends of the same request (1 to 2) whose
relation checks both read the initial empty store.  The first insert
commits; the second hits the unique index and the handler's generic catch
answers 500 "Server error" — not the type-specific conflict message
"Friend request already sent" that the proactive check produces on the
committed state. -/
theorem sendRequest_race_generic_error :
    sendFriendRequest (⟨[mkUser 1 "a" [], mkUser 2 "b" []], [], []⟩ : DB)
        1 2 "" 1 0
      = .created (⟨[mkUser 1 "a" [], mkUser 2 "b" []],
          [mkReq 1 1 2 "pending"], []⟩ : DB) ∧
    sendFriendRequestAt (⟨[mkUser 1 "a" [], mkUser 2 "b" []], [], []⟩ : DB)
        (⟨[mkUser 1 "a" [], mkUser 2 "b" []], [mkReq 1 1 2 "pending"], []⟩ : DB)
        1 2 "" 2 0
      = .serverError "Server error" ∧
    checkExistingRelation (⟨[mkUser 1 "a" [], mkUser 2 "b" []],
        [mkReq 1 1 2 "pending"], []⟩ : DB) 1 2
      = ⟨"sent", "Friend request already sent"⟩ ∧
    SendReqResult.serverError "Server error"
      ≠ SendReqResult.badRequest "Friend request already sent" := by
  decide

/-! ## C1 — the raw `send_message` event bypasses the gateway -/

/-- C1 evidence: users 1 and 2 are not friends and the message store is
empty, yet after user 2 joins, a `send_message` event from 1 to 2 emits
`receive_message` to 2's socket — with no friendship check and with the
database (in particular the Message collection) untouched.  This is the
real-time path that delivers a live message without the sanctioned
persist-then-notify gateway. -/
theorem sendMessage_bypasses_gateway :
    areFriends (⟨[mkUser 1 "a" [], mkUser 2 "b" []], [], []⟩ : DB) 1 2
      = false ∧
    areFriends (⟨[mkUser 1 "a" [], mkUser 2 "b" []], [], []⟩ : DB) 2 1
      = false ∧
    (onSendMessage (onJoin ⟨fun _ => none, fun _ => none, [],
        (⟨[mkUser 1 "a" [], mkUser 2 "b" []], [], []⟩ : DB)⟩ 2 102)
        1 2 "hi").events
      = [SEvent.userOnline 2, SEvent.receiveMessage 102 1 "hi"] ∧
    (onSendMessage (onJoin ⟨fun _ => none, fun _ => none, [],
        (⟨[mkUser 1 "a" [], mkUser 2 "b" []], [], []⟩ : DB)⟩ 2 102)
        1 2 "hi").db
      = (⟨[mkUser 1 "a" [], mkUser 2 "b" []], [], []⟩ : DB) := by
  decide

/-! ## C5 — presence broadcasts for superseded connections -/

/-- C5 counterexample: in the sequence `join(7, c1)`, `join(7, c2)`,
`disconnect(c1)` the layer emits *two* online broadcasts (one per join)
and an offline broadcast for the superseded connection `c1` — the claim
says only one online is emitted and no offline until `disconnect(c2)`.
The stale disconnect even wipes `c2`'s fresh `connectedUsers` entry. -/
theorem presence_superseded_counterexample :
    (onDisconnect (onJoin (onJoin ⟨fun _ => none, fun _ => none, [],
        (⟨[], [], []⟩ : DB)⟩ 7 1) 7 2) 1).events
      = [SEvent.userOnline 7, SEvent.userOnline 7, SEvent.userOffline 7] ∧
    (onDisconnect (onJoin (onJoin ⟨fun _ => none, fun _ => none, [],
        (⟨[], [], []⟩ : DB)⟩ 7 1) 7 2) 1).connectedUsers 7
      = none := by
  constructor
  · decide
  · rfl

/-- C5 (amended): `join(U, c1)` then `disconnect(c1)` emits exactly one
online then one offline broadcast; but every join emits an online
broadcast even when the identity is already present, and disconnecting a
socket that had joined always removes the identity's current mapping and
emits an offline broadcast, even when a later join for the same identity
has superseded the connection. -/
theorem presence_broadcast_spec (s0 : SocketState) (U c1 c2 : Nat) :
    (onDisconnect (onJoin s0 U c1) c1).events
      = s0.events ++ [SEvent.userOnline U, SEvent.userOffline U] ∧
    (onDisconnect (onJoin (onJoin s0 U c1) U c2) c1).events
      = s0.events ++ [SEvent.userOnline U, SEvent.userOnline U,
          SEvent.userOffline U] ∧
    (onDisconnect (onJoin (onJoin s0 U c1) U c2) c1).connectedUsers U
      = none := by
  refine ⟨?_, ?_, ?_⟩ <;>
  · by_cases h : c1 = c2 <;>
      simp [onJoin, onDisconnect, mapSet, mapDelete, h]

/-! ## C6 — conversation summaries -/

/-- `convEntryFor` only produces entries whose components come from the
group with that key: the joined user document, the head of the
newest-first sorted group, and the group's unread count. -/

theorem convEntryFor_some (db : DB) (uid c : Nat) (e : ConvEntry)
    (h : convEntryFor db uid c = some e) :
    e.key = c ∧
    (∃ u, findUser db c = some u ∧ e.user = toBrief u) ∧
    (∃ m, ((convGroup db.messages uid c).insertionSort msgNewerFirst).head?
        = some m ∧ e.lastMessage = toLastMsg m) ∧
    e.unreadCount = (convGroup db.messages uid c).countP
      (fun m => m.recipient == uid && m.isRead == false) := by
  unfold convEntryFor at h
  cases hu2 : findUser db c with
  | none => rw [hu2] at h; simp at h
  | some u =>
    rw [hu2] at h
    cases hm2 : ((convGroup db.messages uid c).insertionSort
        msgNewerFirst).head? with
    | none => rw [hm2] at h; simp at h
    | some m =>
      rw [hm2] at h
      injection h with h
      subst h
      exact ⟨rfl, ⟨u, rfl, rfl⟩, ⟨m, rfl, rfl⟩, rfl⟩

theorem head_sorted_is_max (l : List Message) (m : Message)
    (h : (l.insertionSort msgNewerFirst).head? = some m) :
    m ∈ l ∧ ∀ x ∈ l, x.createdAt ≤ m.createdAt := by
  cases hl : l.insertionSort msgNewerFirst with
  | nil => rw [hl] at h; exact absurd h (by simp)
  | cons a t =>
    rw [hl] at h
    injection h with h
    subst h
    have hperm := List.perm_insertionSort msgNewerFirst l
    rw [hl] at hperm
    have hsorted := List.sorted_insertionSort msgNewerFirst l
    rw [hl] at hsorted
    constructor
    · exact hperm.mem_iff.mp (List.mem_cons_self a t)
    · intro x hx
      have hmem := hperm.mem_iff.mpr hx
      rcases List.mem_cons.mp hmem with rfl | hxt
      · exact le_rfl
      · exact (List.sorted_cons.mp hsorted).1 x hxt

theorem convGroup_ne_nil (msgs : List Message) (uid c : Nat)
    (h : c ∈ counterparts msgs uid) : convGroup msgs uid c ≠ [] := by
  unfold counterparts at h
  rw [List.mem_dedup, List.mem_map] at h
  obtain ⟨m, hm, hmc⟩ := h
  have hmem := List.mem_filter.mp hm
  apply List.ne_nil_of_mem (a := m)
  exact List.mem_filter.mpr ⟨hmem.1, by simp [hmem.2, hmc]⟩

theorem convEntryFor_isSome (db : DB) (uid c : Nat)
    (hc : c ∈ counterparts db.messages uid)
    (u : UserR) (hu : u ∈ db.users) (hid : u.id = c) :
    ∃ e, convEntryFor db uid c = some e := by
  have hfind : (findUser db c).isSome := by
    rw [findUser, List.find?_isSome]
    exact ⟨u, hu, by simp [hid]⟩
  obtain ⟨u', hu'⟩ := Option.isSome_iff_exists.mp hfind
  have hgrp := convGroup_ne_nil db.messages uid c hc
  have hsort : (convGroup db.messages uid c).insertionSort msgNewerFirst ≠ [] := by
    intro hnil
    have hperm := List.perm_insertionSort msgNewerFirst
      (convGroup db.messages uid c)
    rw [hnil] at hperm
    exact hgrp (hperm.symm.eq_nil)
  obtain ⟨m, t, hmt⟩ := List.exists_cons_of_ne_nil hsort
  exact ⟨⟨c, toBrief u', toLastMsg m,
      (convGroup db.messages uid c).countP
        (fun m => m.recipient == uid && m.isRead == false)⟩,
    by unfold convEntryFor; rw [hu', hmt]; rfl⟩

theorem keys_filterMap_sublist (db : DB) (uid : Nat) (ks : List Nat) :
    ((ks.filterMap (convEntryFor db uid)).map (fun e => e.key)).Sublist ks := by
  induction ks with
  | nil => simp
  | cons a t ih =>
    cases hfa : convEntryFor db uid a with
    | none =>
      rw [List.filterMap_cons_none hfa]
      exact ih.cons a
    | some e =>
      rw [List.filterMap_cons_some hfa, List.map_cons,
        (convEntryFor_some db uid a e hfa).1]
      exact ih.cons₂ a

theorem conv_pred_eq (uid c : Nat) (m : Message) :
    ((m.recipient == uid && m.isRead == false)
      && (involves uid m && counterpart uid m == c))
    = (m.sender == c && m.recipient == uid && m.isRead == false) := by
  unfold involves counterpart
  cases hs : (m.sender == uid) <;> cases hr : (m.recipient == uid) <;>
    cases hsc : (m.sender == c) <;> cases hrc : (m.recipient == c) <;>
    cases hi : m.isRead <;>
    simp [hs, hr, hsc, hrc, hi] <;>
    (simp only [beq_iff_eq, beq_eq_false_iff_ne] at hs hr hsc hrc; omega)

theorem convGroup_countP (uid c : Nat) (msgs : List Message) :
    (convGroup msgs uid c).countP
      (fun m => m.recipient == uid && m.isRead == false)
    = msgs.countP
      (fun m => m.sender == c && m.recipient == uid && m.isRead == false) := by
  unfold convGroup
  rw [List.countP_filter]
  congr 1
  funext m
  exact conv_pred_eq uid c m

/-- C6: provided every counterpart's user document exists (the `$unwind`
would silently drop a group whose user was deleted), `listConversations`
returns exactly one entry per counterpart the user has exchanged messages
with; each entry carries that counterpart's public brief, a most-recent
message of the pair, and an unread count equal to the number of
currently-unread messages addressed to the user from that counterpart; and
the list is sorted by last-message time, descending. -/
theorem listConversations_spec (db : DB) (uid : Nat)
    (hu : ∀ c ∈ counterparts db.messages uid, ∃ u ∈ db.users, u.id = c) :
    ((listConversations db uid).map (fun e => e.key)).Nodup ∧
    (∀ c, c ∈ (listConversations db uid).map (fun e => e.key)
      ↔ c ∈ counterparts db.messages uid) ∧
    (∀ e ∈ listConversations db uid,
      ∃ u ∈ db.users, u.id = e.key ∧ e.user = toBrief u) ∧
    (∀ e ∈ listConversations db uid,
      ∃ m ∈ convGroup db.messages uid e.key,
        e.lastMessage = toLastMsg m ∧
        ∀ x ∈ convGroup db.messages uid e.key, x.createdAt ≤ m.createdAt) ∧
    (∀ e ∈ listConversations db uid, e.unreadCount
      = db.messages.countP (fun m =>
          m.sender == e.key && m.recipient == uid && m.isRead == false)) ∧
    List.Sorted convNewerFirst (listConversations db uid) := by
  have hperm : List.Perm (listConversations db uid)
      ((counterparts db.messages uid).filterMap (convEntryFor db uid)) :=
    List.perm_insertionSort convNewerFirst _
  have hmem : ∀ e, e ∈ listConversations db uid ↔
      ∃ c ∈ counterparts db.messages uid, convEntryFor db uid c = some e := by
    intro e
    rw [hperm.mem_iff, List.mem_filterMap]
  refine ⟨?_, ?_, ?_, ?_, ?_, ?_⟩
  · have h1 : (((counterparts db.messages uid).filterMap
        (convEntryFor db uid)).map (fun e => e.key)).Nodup :=
      (keys_filterMap_sublist db uid _).nodup (List.nodup_dedup _)
    exact ((hperm.map (fun e => e.key)).nodup_iff).mpr h1
  · intro c
    constructor
    · intro hcm
      obtain ⟨e, he, hek⟩ := List.mem_map.mp hcm
      obtain ⟨c', hc', hfe⟩ := (hmem e).mp he
      have hk := (convEntryFor_some db uid c' e hfe).1
      rw [← hek, hk]
      exact hc'
    · intro hc
      obtain ⟨u, humem, huid⟩ := hu c hc
      obtain ⟨e, he⟩ := convEntryFor_isSome db uid c hc u humem huid
      exact List.mem_map.mpr
        ⟨e, (hmem e).mpr ⟨c, hc, he⟩, (convEntryFor_some db uid c e he).1⟩
  · intro e he
    obtain ⟨c, hc, hfe⟩ := (hmem e).mp he
    obtain ⟨hkey, ⟨u, hfind, hbrief⟩, _, _⟩ := convEntryFor_some db uid c e hfe
    refine ⟨u, List.mem_of_find?_eq_some hfind, ?_, hbrief⟩
    have hpred := List.find?_some hfind
    rw [hkey]
    simpa using hpred
  · intro e he
    obtain ⟨c, hc, hfe⟩ := (hmem e).mp he
    obtain ⟨hkey, _, ⟨m, hhead, hlast⟩, _⟩ := convEntryFor_some db uid c e hfe
    have hmax := head_sorted_is_max _ _ hhead
    rw [hkey]
    exact ⟨m, hmax.1, hlast, hmax.2⟩
  · intro e he
    obtain ⟨c, hc, hfe⟩ := (hmem e).mp he
    obtain ⟨hkey, _, _, hcount⟩ := convEntryFor_some db uid c e hfe
    rw [hkey, hcount]
    exact convGroup_countP uid c db.messages
  · exact List.sorted_insertionSort convNewerFirst _

/-- C6 witness: the theorem applied to the concrete two-user store. -/
theorem listConversations_spec_witness :
    (∀ c ∈ counterparts dbConvSample.messages 1,
      ∃ u ∈ dbConvSample.users, u.id = c) ∧
    ((listConversations dbConvSample 1).map (fun e => e.key)).Nodup ∧
    (∀ c, c ∈ (listConversations dbConvSample 1).map (fun e => e.key)
      ↔ c ∈ counterparts dbConvSample.messages 1) ∧
    (∀ e ∈ listConversations dbConvSample 1,
      ∃ u ∈ dbConvSample.users, u.id = e.key ∧ e.user = toBrief u) ∧
    (∀ e ∈ listConversations dbConvSample 1,
      ∃ m ∈ convGroup dbConvSample.messages 1 e.key,
        e.lastMessage = toLastMsg m ∧
        ∀ x ∈ convGroup dbConvSample.messages 1 e.key,
          x.createdAt ≤ m.createdAt) ∧
    (∀ e ∈ listConversations dbConvSample 1, e.unreadCount
      = dbConvSample.messages.countP (fun m =>
          m.sender == e.key && m.recipient == 1 && m.isRead == false)) ∧
    List.Sorted convNewerFirst (listConversations dbConvSample 1) :=
  ⟨by decide, listConversations_spec dbConvSample 1 (by decide)⟩
